import Mathlib

/-!
Shallow embedding of the FFoveated transcoding pipeline
(src/main.c, src/helpers.h, src/codec.h) and proofs about it.

Modelling conventions:
* FFmpeg / SDL calls are oracles: the sequence of `avcodec_receive_*`
  results drives each thread loop (an event list), `av_read_frame`
  results drive the reader, allocation outcomes are `Nat → Bool`
  oracles indexed by the allocation call counter, the monotonic clock
  `av_gettime_relative` and the mouse/window state are oracle inputs.
* Queues are SPSC FIFOs; a thread's interaction with its output queue
  is the list of payloads it appends, in order.  A null pointer payload
  (the end-of-stream sentinel) is `none`.
* C floats are modelled exactly by `Rat`; machine integers by `Int`.
* `pexit` (report + exit with nonzero status) is the `fatal` result;
  a dequeue from a queue that the finite model left empty, or running
  past the end of the finite oracle schedule, is the `stuck` result
  (the real thread would block there).
-/

namespace FFoveated

/-- Error codes returned by the FFmpeg codec API on Linux:
`AVERROR(e) = -e` for errno values, `AVERROR_EOF = FFERRTAG('E','O','F',' ')`. -/
def AVERROR_EAGAIN : Int := -11

def AVERROR_EOF : Int := -541478725

def AVERROR_EINVAL : Int := -22

def AVERROR_ENOMEM : Int := -12

/-- `AVDiscard` value `AVDISCARD_DEFAULT` (discard useless packets only). -/
def AVDISCARD_DEFAULT : Int := 0

/-- `AVDiscard` value `AVDISCARD_ALL` (discard the whole stream). -/
def AVDISCARD_ALL : Int := 48

/-- Side-data tag `AV_FRAME_DATA_FOVEATION_DESCRIPTOR` of the ffmpeg fork
(the numeric value is immaterial, only the symbol is used). -/
def AV_FRAME_DATA_FOVEATION_DESCRIPTOR : Nat := 23

/-- `descr_size = 4*sizeof(float)` from `encoder_thread` (helpers.h). -/
def descr_size : Nat := 4 * 4

/-- A foveation descriptor: 4 floats (x, y, standard deviation, offset). -/
abbrev Descr : Type := Rat × Rat × Rat × Rat

/-- An `AVPacket` as far as the pipeline observes it: `pkt->buf`
(null or an opaque buffer) and `pkt->stream_index`; `payload`
stands for all remaining fields. -/
structure Packet where
  buf : Option Nat
  stream_index : Int
  payload : Nat
deriving DecidableEq, Repr

/-- One entry of an `AVFrame`'s side-data array. -/
structure SideData where
  sd_type : Nat
  size : Nat
  data : Option Descr
deriving DecidableEq

/-- An `AVFrame` as far as the pipeline observes it: pixel data is the
opaque `payload`, plus `pict_type` and the side-data array. -/
structure Frame where
  payload : Nat
  pict_type : Int
  side_data : List SideData
deriving DecidableEq

/-- Outcome of one thread body over a finite oracle schedule: the thread
returned normally, called `pexit msg`, or would block / needs more of the
oracle schedule.  `out` is the list of payloads appended to the thread's
output queue, in order. -/
inductive RunResult (ω : Type) where
  | finished (out : List ω)
  | fatal (out : List ω) (msg : String)
  | stuck (out : List ω)
deriving DecidableEq

/-- Prepend an output-queue append done before the rest of the run. -/
def RunResult.push {ω : Type} (x : ω) : RunResult ω → RunResult ω
  | .finished out => .finished (x :: out)
  | .fatal out msg => .fatal (x :: out) msg
  | .stuck out => .stuck (x :: out)

/-- The output-queue appends of a run, whatever its outcome. -/
def RunResult.out {ω : Type} : RunResult ω → List ω
  | .finished o => o
  | .fatal o _ => o
  | .stuck o => o

/-! ### supply_packet / supply_frame (main.c and helpers.h) -/

/-- `supply_packet` (identical in main.c and helpers.h): the `pexit`
message it dies with, as a function of the `avcodec_send_packet` return
value, or `none` when it just returns. -/
def supply_packet (ret : Int) : Option String :=
  if ret = AVERROR_EAGAIN then
    some "API break: decoder send and receive returns EAGAIN"
  else if ret = AVERROR_EOF then
    some "Decoder has already been flushed"
  else if ret = AVERROR_EINVAL then
    some "codec invalid, not open or requires flushing"
  else if ret = AVERROR_ENOMEM then
    some "memory allocation failed"
  else
    none

/-- `supply_frame` (helpers.h): the `pexit` message as a function of the
`avcodec_send_frame` return value, or `none` when it just returns. -/
def supply_frame (ret : Int) : Option String :=
  if ret = AVERROR_EAGAIN then
    some "API break: encoder send and receive returns EAGAIN"
  else if ret = AVERROR_EOF then
    some "Encoder has already been flushed"
  else if ret = AVERROR_EINVAL then
    some "codec invalid, not open or requires flushing"
  else if ret = AVERROR_ENOMEM then
    some "memory allocation failed"
  else
    none

/-! ### reader_thread (main.c) -/

/-- One `av_read_frame` result: a packet, end of file, or any other
negative return value. -/
inductive ReadRes where
  | pkt (p : Packet)
  | eof
  | err
deriving DecidableEq

/-- The loop of `reader_thread` (main.c): per iteration, `malloc` a
packet (oracle `alloc`, counted by `k`; null means `pexit`), read;
on EOF break out and append the null sentinel, on other failures
`pexit`, drop packets with a null buffer or a foreign stream index,
append everything else to the packet queue. -/
def reader_loop (alloc : Nat → Bool) (idx : Int) :
    List ReadRes → Nat → RunResult (Option Packet)
  | [], k => if alloc k then .stuck [] else .fatal [] "malloc failed"
  | .eof :: _, k =>
    if alloc k then .finished [none] else .fatal [] "malloc failed"
  | .err :: _, k =>
    if alloc k then .fatal [] "av_read_frame failed"
    else .fatal [] "malloc failed"
  | .pkt p :: rest, k =>
    if alloc k then
      if p.buf = none ∨ p.stream_index ≠ idx then
        reader_loop alloc idx rest (k + 1)
      else
        (reader_loop alloc idx rest (k + 1)).push (some p)
    else
      .fatal [] "malloc failed"

/-- `reader_thread` (main.c): run the loop from the first allocation. -/
def reader_thread (alloc : Nat → Bool) (idx : Int) (sched : List ReadRes) :
    RunResult (Option Packet) :=
  reader_loop alloc idx sched 0

/-- The packets delivered by `av_read_frame` before the loop stops
(first `eof` or `err`). -/
def pktPrefix : List ReadRes → List Packet
  | [] => []
  | .pkt p :: rest => p :: pktPrefix rest
  | .eof :: _ => []
  | .err :: _ => []

/-- The event that stops the read loop, if the schedule contains one. -/
def stopper : List ReadRes → Option ReadRes
  | [] => none
  | .pkt _ :: rest => stopper rest
  | .eof :: _ => some .eof
  | .err :: _ => some .err

/-- The reader keeps a packet iff its buffer is non-null and its stream
index is the selected video stream (negation of the drop test in
main.c line 81). -/
def keepPacket (idx : Int) (p : Packet) : Bool :=
  ¬(p.buf = none ∨ p.stream_index ≠ idx)

/-! ### reader_init stream discarding (main.c) -/

/-- The only `discard` assignment in `reader_init` (main.c line 246):
`format_ctx->streams[stream_index]->discard = AVDISCARD_DEFAULT`.
The container's streams are listed by their `discard` values. -/
def reader_init_discard (streams : List Int) (stream_index : Nat) : List Int :=
  streams.set stream_index AVDISCARD_DEFAULT

/-! ### foveation_descriptor (helpers.h), fallback (non-ET) branch -/

/-- `foveation_descriptor` (helpers.h), fallback branch: mouse position
and window size are oracle inputs; the float arithmetic is modelled
exactly over `Rat`.  (The `malloc` of the 4-float array `pexit`s on
failure and so never yields a null descriptor.) -/
def foveation_descriptor (mouse_x mouse_y width height : Int) : Descr :=
  ((mouse_x : Rat) / (width : Rat), (mouse_y : Rat) / (height : Rat),
    3 / 10, 20)

/-! ### main's playlist loop (main.c) -/

/-- The playlist loop of `main` (main.c lines 308-316): the body runs the
reader pipeline on `video_files[0]` and unconditionally `break`s at the
end of the first iteration.  Result: the list of playlist entries a
pipeline is run for, in order. -/
def main_playlist (video_files : List String) : List String :=
  match video_files with
  | [] => []
  | f :: _ => [f]

/-! ### The two decoder_thread implementations (main.c and helpers.h) -/

/-- One `avcodec_receive_frame` result driving a decoder-loop iteration:
a decoded frame, `EAGAIN` (the loop then feeds a packet, and
`avcodec_send_packet` returns `send_ret`), `EOF`, or `EINVAL`. -/
inductive DecEvent where
  | ok (f : Frame)
  | eagain (send_ret : Int)
  | eof
  | einval
deriving DecidableEq

/-- The loop of `decoder_thread` in main.c: the frame container null
check (`pexit`) sits directly after each `av_frame_alloc` (oracle
`alloc`, counted by `k`; the container entering an iteration is always
non-null).  On a frame, append it and allocate anew; on `EAGAIN`,
dequeue a packet and `supply_packet` it (the packet is NOT freed);
on `EOF` break out and append the null sentinel; on `EINVAL`, `pexit`. -/
def decoder_main_loop (alloc : Nat → Bool) :
    List DecEvent → List (Option Packet) → Nat → RunResult (Option Frame)
  | [], _, _ => .stuck []
  | .ok f :: rest, pq, k =>
    if alloc (k + 1) then
      (decoder_main_loop alloc rest pq (k + 1)).push (some f)
    else
      .fatal [some f] "av_frame_alloc failed"
  | .eagain _ :: _, [], _ => .stuck []
  | .eagain send_ret :: rest, _ :: pq', k =>
    match supply_packet send_ret with
    | some msg => .fatal [] msg
    | none => decoder_main_loop alloc rest pq' k
  | .eof :: _, _, _ => .finished [none]
  | .einval :: _, _, _ => .fatal [] "avcodec_receive_frame failed"

/-- `decoder_thread` (main.c): initial `av_frame_alloc` with an
immediate null check, then the loop. -/
def decoder_thread_main (alloc : Nat → Bool) (sched : List DecEvent)
    (pq : List (Option Packet)) : RunResult (Option Frame) :=
  if alloc 0 then
    decoder_main_loop alloc sched pq 0
  else
    .fatal [] "av_frame_alloc failed"

/-- The loop of `decoder_thread` in helpers.h: the frame container null
check (`pexit`) sits at the TOP of every iteration (`frame_ok` is
whether the last `av_frame_alloc` succeeded).  On `EAGAIN` the consumed
packet is additionally freed (`av_packet_free`), which has no
queue-visible effect.  Everything else is as in main.c. -/
def decoder_codec_loop (alloc : Nat → Bool) :
    List DecEvent → List (Option Packet) → Nat → Bool → RunResult (Option Frame)
  | _, _, _, false => .fatal [] "av_frame_alloc failed"
  | [], _, _, true => .stuck []
  | .ok f :: rest, pq, k, true =>
    (decoder_codec_loop alloc rest pq (k + 1) (alloc (k + 1))).push (some f)
  | .eagain _ :: _, [], _, true => .stuck []
  | .eagain send_ret :: rest, _ :: pq', k, true =>
    match supply_packet send_ret with
    | some msg => .fatal [] msg
    | none => decoder_codec_loop alloc rest pq' k true
  | .eof :: _, _, _, true => .finished [none]
  | .einval :: _, _, _, true => .fatal [] "avcodec_receive_frame failed"

/-- `decoder_thread` (helpers.h): initial `av_frame_alloc` without a
check, then the loop (which checks at its top). -/
def decoder_thread_codec (alloc : Nat → Bool) (sched : List DecEvent)
    (pq : List (Option Packet)) : RunResult (Option Frame) :=
  decoder_codec_loop alloc sched pq 0 (alloc 0)

/-! ### encoder_thread (helpers.h) -/

/-- One `avcodec_receive_packet` result driving an encoder-loop
iteration: an encoded packet, `EAGAIN` (the loop then feeds a frame,
and `avcodec_send_frame` returns `send_ret`), `EOF`, or `EINVAL`. -/
inductive EncEvent where
  | ok (p : Packet)
  | eagain (send_ret : Int)
  | eof
  | einval
deriving DecidableEq

/-- What `encoder_thread` emits: appends to its output packet queue
(`pkts`, sentinel included), appends to the lag queue (`lags`; `none`
models the null timestamp pointer after a failed `malloc`), the frames
passed to `supply_frame` in order (`subs`), and non-fatal error reports
made via `perror` (`errs`). -/
structure EncOut where
  pkts : List (Option Packet)
  lags : List (Option Int)
  subs : List Frame
  errs : List String
deriving DecidableEq

def EncOut.empty : EncOut := ⟨[], [], [], []⟩

/-- Outcome of the encoder loop, analogous to `RunResult`. -/
inductive EncResult where
  | finished (o : EncOut)
  | fatal (o : EncOut) (msg : String)
  | stuck (o : EncOut)
deriving DecidableEq

def EncResult.out : EncResult → EncOut
  | .finished o => o
  | .fatal o _ => o
  | .stuck o => o

def EncResult.mapOut (f : EncOut → EncOut) : EncResult → EncResult
  | .finished o => .finished (f o)
  | .fatal o msg => .fatal (f o) msg
  | .stuck o => .stuck (f o)

def EncResult.pushPkt (p : Option Packet) (r : EncResult) : EncResult :=
  r.mapOut fun o => { o with pkts := p :: o.pkts }

def EncResult.pushLag (t : Option Int) (r : EncResult) : EncResult :=
  r.mapOut fun o => { o with lags := t :: o.lags }

def EncResult.pushSub (f : Frame) (r : EncResult) : EncResult :=
  r.mapOut fun o => { o with subs := f :: o.subs }

def EncResult.pushErr (e : String) (r : EncResult) : EncResult :=
  r.mapOut fun o => { o with errs := e :: o.errs }

/-- `av_frame_new_side_data(frame, AV_FRAME_DATA_FOVEATION_DESCRIPTOR,
descr_size)` followed by `sd->data = (uint8_t *) descr`: a new side-data
entry with that tag and size whose data pointer is the descriptor. -/
def attach_descriptor (fr : Frame) (descr : Descr) : Frame :=
  { fr with
    side_data :=
      fr.side_data ++ [⟨AV_FRAME_DATA_FOVEATION_DESCRIPTOR, descr_size, some descr⟩] }

/-- The loop of `encoder_thread` (helpers.h).  Oracles: `pkt_alloc` for
`av_packet_alloc` (counted by `kp`; checked, like in the helpers.h
decoder, at the top of the next iteration via `pkt_ok`), `sd_alloc` for
`av_frame_new_side_data` and `ts_alloc` for the lag-timestamp `malloc`
(both counted by the submission counter `ks`), `gaze` for
`foveation_descriptor` (whose own `malloc` failure `pexit`s inside the
call) and `time` for `av_gettime_relative`.

On an encoded packet, append it downstream and allocate a new one.  On
`EAGAIN`, extract a frame: the null sentinel breaks the loop; otherwise
attach the foveation side data (`pexit` if its allocation fails), clear
`pict_type`, `supply_frame` the frame, free it, `malloc` a timestamp —
on failure report via `perror` and CONTINUE (the subsequent store
through the null pointer is undefined behaviour, modelled as a `none`
lag entry) — and append the timestamp to the lag queue.  `EOF` breaks;
`EINVAL` is fatal.  After a break the null sentinel goes downstream. -/
def encoder_loop (pkt_alloc sd_alloc ts_alloc : Nat → Bool)
    (gaze : Nat → Descr) (time : Nat → Int) :
    List EncEvent → List (Option Frame) → Nat → Nat → Bool → EncResult
  | _, _, _, _, false => .fatal .empty "av_packet_alloc failed"
  | [], _, _, _, true => .stuck .empty
  | .ok p :: rest, fq, kp, ks, true =>
    (encoder_loop pkt_alloc sd_alloc ts_alloc gaze time rest fq
        (kp + 1) ks (pkt_alloc (kp + 1))).pushPkt (some p)
  | .eagain _ :: _, [], _, _, true => .stuck .empty
  | .eagain _ :: _, none :: _, _, _, true =>
    .finished { EncOut.empty with pkts := [none] }
  | .eagain send_ret :: rest, some fr :: fq', kp, ks, true =>
    if sd_alloc ks then
      match supply_frame send_ret with
      | some msg =>
        .fatal { EncOut.empty with
                  subs := [{ attach_descriptor fr (gaze ks) with
                              pict_type := 0 }] } msg
      | none =>
        if ts_alloc ks then
          ((encoder_loop pkt_alloc sd_alloc ts_alloc gaze time rest fq'
                kp (ks + 1) true).pushLag
              (some (time ks))).pushSub
            { attach_descriptor fr (gaze ks) with pict_type := 0 }
        else
          (((encoder_loop pkt_alloc sd_alloc ts_alloc gaze time rest fq'
                  kp (ks + 1) true).pushLag none).pushErr
              "malloc failed").pushSub
            { attach_descriptor fr (gaze ks) with pict_type := 0 }
    else
      .fatal .empty "side data allocation failed"
  | .eof :: _, _, _, _, true => .finished { EncOut.empty with pkts := [none] }
  | .einval :: _, _, _, _, true => .fatal .empty "avcodec_receive_packet failed"

/-- `encoder_thread` (helpers.h): initial `av_packet_alloc` (checked at
the loop top), then the loop from fresh counters. -/
def encoder_thread (pkt_alloc sd_alloc ts_alloc : Nat → Bool)
    (gaze : Nat → Descr) (time : Nat → Int)
    (sched : List EncEvent) (fq : List (Option Frame)) : EncResult :=
  encoder_loop pkt_alloc sd_alloc ts_alloc gaze time sched fq 0 0 (pkt_alloc 0)

/-- A frame carries the foveation side data: an entry tagged
`AV_FRAME_DATA_FOVEATION_DESCRIPTOR`, of size `descr_size` (= 16) bytes,
with a non-null data pointer. -/
def hasFovSideData (fr : Frame) : Prop :=
  ∃ sd ∈ fr.side_data,
    sd.sd_type = AV_FRAME_DATA_FOVEATION_DESCRIPTOR ∧
    sd.size = descr_size ∧ sd.data ≠ none

instance (fr : Frame) : Decidable (hasFovSideData fr) := by
  unfold hasFovSideData; infer_instance

/-- A queue history is terminated by exactly one null sentinel, and the
sentinel is its final element. -/
def sentinelFinal {α : Type} [DecidableEq α] (l : List (Option α)) : Prop :=
  l.count none = 1 ∧ l.getLast? = some none

/-! ## Theorems -/

/-- C9: `supply_packet` and `supply_frame` treat any codec-submit return
value outside {0 (OK), EAGAIN, EOF, EINVAL, ENOMEM} as success: they
report no error and do not terminate, and the calling decoder loop
proceeds with the packet consumed as if it had been accepted. -/
theorem supply_unmodeled_return_is_success (ret : Int)
    (h0 : ret ≠ 0) (h1 : ret ≠ AVERROR_EAGAIN) (h2 : ret ≠ AVERROR_EOF)
    (h3 : ret ≠ AVERROR_EINVAL) (h4 : ret ≠ AVERROR_ENOMEM) :
    supply_packet ret = none ∧ supply_frame ret = none ∧
    ∀ (alloc : Nat → Bool) (rest : List DecEvent) (p : Option Packet)
      (pq : List (Option Packet)) (k : Nat),
      decoder_codec_loop alloc (.eagain ret :: rest) (p :: pq) k true =
        decoder_codec_loop alloc rest pq k true := by
  refine ⟨?_, ?_, ?_⟩
  · simp [supply_packet, h1, h2, h3, h4]
  · simp [supply_frame, h1, h2, h3, h4]
  · intro alloc rest p pq k
    simp [decoder_codec_loop, supply_packet, h1, h2, h3, h4]

/-- Witness for C9 at the concrete unmodeled return value 1. -/
theorem supply_unmodeled_return_is_success_witness :
    supply_packet 1 = none ∧ supply_frame 1 = none ∧
    decoder_codec_loop (fun _ => true) [.eagain 1] [none] 0 true =
      decoder_codec_loop (fun _ => true) [] [] 0 true :=
  ⟨(supply_unmodeled_return_is_success 1 (by decide) (by decide) (by decide)
      (by decide) (by decide)).1,
   (supply_unmodeled_return_is_success 1 (by decide) (by decide) (by decide)
      (by decide) (by decide)).2.1,
   (supply_unmodeled_return_is_success 1 (by decide) (by decide) (by decide)
      (by decide) (by decide)).2.2 (fun _ => true) [] none [] 0⟩

/-- C6: in fallback mode `foveation_descriptor` returns
`(mx/W, my/H, 0.3, 20)`, and whenever the pointer is inside the window
(`0 ≤ mx ≤ W`, `0 ≤ my ≤ H`, `W, H > 0`) the first two components lie
in `[0, 1]`. -/
theorem foveation_descriptor_fallback (mx my W H : Int)
    (hW : 0 < W) (hH : 0 < H) (hx0 : 0 ≤ mx) (hxW : mx ≤ W)
    (hy0 : 0 ≤ my) (hyH : my ≤ H) :
    foveation_descriptor mx my W H =
      ((mx : Rat) / (W : Rat), (my : Rat) / (H : Rat), 3 / 10, 20) ∧
    0 ≤ (foveation_descriptor mx my W H).1 ∧
    (foveation_descriptor mx my W H).1 ≤ 1 ∧
    0 ≤ (foveation_descriptor mx my W H).2.1 ∧
    (foveation_descriptor mx my W H).2.1 ≤ 1 := by
  have hW' : (0 : Rat) < (W : Rat) := by exact_mod_cast hW
  have hH' : (0 : Rat) < (H : Rat) := by exact_mod_cast hH
  refine ⟨rfl, ?_, ?_, ?_, ?_⟩
  · exact div_nonneg (by exact_mod_cast hx0) hW'.le
  · rw [foveation_descriptor, div_le_one hW']
    exact_mod_cast hxW
  · exact div_nonneg (by exact_mod_cast hy0) hH'.le
  · rw [foveation_descriptor, div_le_one hH']
    exact_mod_cast hyH

/-- Witness for C6 with the pointer at (1, 2) in a 2×4 window. -/
theorem foveation_descriptor_fallback_witness :
    foveation_descriptor 1 2 2 4 =
      (((1 : Int) : Rat) / ((2 : Int) : Rat),
        ((2 : Int) : Rat) / ((4 : Int) : Rat), 3 / 10, 20) ∧
    0 ≤ (foveation_descriptor 1 2 2 4).1 ∧
    (foveation_descriptor 1 2 2 4).1 ≤ 1 ∧
    0 ≤ (foveation_descriptor 1 2 2 4).2.1 ∧
    (foveation_descriptor 1 2 2 4).2.1 ≤ 1 :=
  foveation_descriptor_fallback 1 2 2 4 (by decide) (by decide) (by decide)
    (by decide) (by decide) (by decide)

/-- C8: for any non-empty playlist, `main` runs the pipeline for the
first entry only and leaves the loop. -/
theorem main_playlist_first_entry_only (files : List String)
    (h : files ≠ []) : main_playlist files = [files.head h] := by
  cases files with
  | nil => exact absurd rfl h
  | cons f fs => rfl

/-- Witness for C8 on a three-entry playlist. -/
theorem main_playlist_first_entry_only_witness :
    main_playlist ["a.mp4", "b.mp4", "c.mp4"] =
      [(["a.mp4", "b.mp4", "c.mp4"] : List String).head (by simp)] :=
  main_playlist_first_entry_only ["a.mp4", "b.mp4", "c.mp4"] (by simp)

/-- C5 counterexample: a container with two streams, both initially at
`AVDISCARD_DEFAULT`, with video stream 0 selected.  After the only
`discard` assignment of `reader_init` (main.c line 246) the other
stream (index 1) still has `AVDISCARD_DEFAULT`: it was not marked as
discarded. -/
theorem reader_init_discard_spares_other_stream :
    reader_init_discard [AVDISCARD_DEFAULT, AVDISCARD_DEFAULT] 0 =
      [AVDISCARD_DEFAULT, AVDISCARD_DEFAULT] ∧
    (reader_init_discard [AVDISCARD_DEFAULT, AVDISCARD_DEFAULT] 0)[1]? ≠
      some AVDISCARD_ALL := by decide

/-- C5 amended: during reader initialization only the selected video
stream's `discard` field is assigned (to `AVDISCARD_DEFAULT`); every
other stream keeps its previous `discard` value. -/
theorem reader_init_discard_selected_only (streams : List Int) (i : Nat)
    (hi : i < streams.length) :
    (reader_init_discard streams i)[i]? = some AVDISCARD_DEFAULT ∧
    ∀ j, j ≠ i → (reader_init_discard streams i)[j]? = streams[j]? := by
  constructor
  · simp [reader_init_discard, List.getElem?_set_self', List.getElem?_eq_getElem hi]
  · intro j hj
    simp [reader_init_discard, List.getElem?_set_ne (fun h => hj h.symm)]

/-- Witness for the amended C5 on a two-stream container. -/
theorem reader_init_discard_selected_only_witness :
    (reader_init_discard [7, 9] 0)[0]? = some AVDISCARD_DEFAULT ∧
    (reader_init_discard [7, 9] 0)[1]? = ([7, 9] : List Int)[1]? :=
  ⟨(reader_init_discard_selected_only [7, 9] 0 (by decide)).1,
   (reader_init_discard_selected_only [7, 9] 0 (by decide)).2 1 (by decide)⟩

/-! ### Helper lemmas (shared) -/

/-- A dead frame container makes the helpers.h decoder loop `pexit`
immediately, whatever the remaining schedule and queue. -/
theorem decoder_codec_loop_dead (alloc : Nat → Bool) (sched : List DecEvent)
    (pq : List (Option Packet)) (k : Nat) :
    decoder_codec_loop alloc sched pq k false =
      .fatal [] "av_frame_alloc failed" := by
  cases sched with
  | nil => rfl
  | cons e rest =>
    cases e with
    | ok f => rfl
    | eagain r => cases pq <;> rfl
    | eof => rfl
    | einval => rfl

/-- With a live frame container, the helpers.h decoder loop computes
exactly what the main.c decoder loop computes. -/
theorem decoder_codec_loop_live (alloc : Nat → Bool) :
    ∀ (sched : List DecEvent) (pq : List (Option Packet)) (k : Nat),
      decoder_codec_loop alloc sched pq k true =
        decoder_main_loop alloc sched pq k := by
  intro sched
  induction sched with
  | nil => intro pq k; rfl
  | cons e rest ih =>
    intro pq k
    cases e with
    | ok f =>
      by_cases h : alloc (k + 1)
      · simp only [decoder_codec_loop, decoder_main_loop, h, if_true, ih]
      · have h' : alloc (k + 1) = false := by simpa using h
        simp [decoder_codec_loop, decoder_main_loop, h',
          decoder_codec_loop_dead, RunResult.push]
    | eagain r =>
      cases pq with
      | nil => rfl
      | cons p pq' =>
        cases hs : supply_packet r with
        | some msg => simp only [decoder_codec_loop, decoder_main_loop, hs]
        | none => simp only [decoder_codec_loop, decoder_main_loop, hs, ih]
    | eof => rfl
    | einval => rfl

/-! ### C10 -/

/-- C10: the two decoder-loop implementations — `decoder_thread` in
main.c and `decoder_thread` in helpers.h — are observationally
equivalent at the queue interface: for the same receive/submit results
and packet-queue contents they produce the same frame-queue history
(frames then the single null sentinel) and the same termination
behaviour; they differ only in freeing the consumed packet, which the
queues cannot observe. -/
theorem decoder_threads_equivalent (alloc : Nat → Bool)
    (sched : List DecEvent) (pq : List (Option Packet)) :
    decoder_thread_codec alloc sched pq = decoder_thread_main alloc sched pq := by
  unfold decoder_thread_codec decoder_thread_main
  by_cases h : alloc 0
  · rw [h, if_pos rfl]
    exact decoder_codec_loop_live alloc sched pq 0
  · have h' : alloc 0 = false := by simpa using h
    rw [h', if_neg (by simp), decoder_codec_loop_dead]

/-! ### C4 -/

/-- C4: the behaviour of the reader loop when every packet `malloc`
succeeds.  If `av_read_frame` eventually reports EOF, the reader
appends exactly the video packets with a non-null buffer, in file
order, then the null sentinel, and returns.  If it reports any other
failure first, the reader dies fatally with the packets read so far
already enqueued and no sentinel.  If the finite schedule runs out, the
partial queue history is again exactly the kept packets. -/
theorem reader_thread_behavior (alloc : Nat → Bool) (idx : Int)
    (sched : List ReadRes) (halloc : ∀ k, alloc k = true) :
    (stopper sched = some .eof →
      reader_thread alloc idx sched =
        .finished (((pktPrefix sched).filter (keepPacket idx)).map some
          ++ [none])) ∧
    (stopper sched = some .err →
      reader_thread alloc idx sched =
        .fatal (((pktPrefix sched).filter (keepPacket idx)).map some)
          "av_read_frame failed") ∧
    (stopper sched = none →
      reader_thread alloc idx sched =
        .stuck (((pktPrefix sched).filter (keepPacket idx)).map some)) := by
  have main : ∀ (sched : List ReadRes) (k : Nat),
      (stopper sched = some .eof →
        reader_loop alloc idx sched k =
          .finished (((pktPrefix sched).filter (keepPacket idx)).map some
            ++ [none])) ∧
      (stopper sched = some .err →
        reader_loop alloc idx sched k =
          .fatal (((pktPrefix sched).filter (keepPacket idx)).map some)
            "av_read_frame failed") ∧
      (stopper sched = none →
        reader_loop alloc idx sched k =
          .stuck (((pktPrefix sched).filter (keepPacket idx)).map some)) := by
    intro sched
    induction sched with
    | nil =>
      intro k
      refine ⟨?_, ?_, ?_⟩ <;> intro h
      · simp [stopper] at h
      · simp [stopper] at h
      · simp [reader_loop, halloc k, pktPrefix]
    | cons e rest ih =>
      intro k
      cases e with
      | pkt p =>
        by_cases hc : p.buf = none ∨ p.stream_index ≠ idx
        · have hkeep : keepPacket idx p = false := by
            simp [keepPacket, hc]
          refine ⟨?_, ?_, ?_⟩ <;> intro h <;>
            simp only [stopper] at h <;>
            simp only [reader_loop, halloc k, if_true, hc, if_pos,
              pktPrefix, List.filter_cons, hkeep, Bool.false_eq_true,
              if_false]
          · exact (ih (k + 1)).1 h
          · exact (ih (k + 1)).2.1 h
          · exact (ih (k + 1)).2.2 h
        · have hkeep : keepPacket idx p = true := by
            simp [keepPacket]
            tauto
          refine ⟨?_, ?_, ?_⟩ <;> intro h <;>
            simp only [stopper] at h <;>
            simp only [reader_loop, halloc k, if_true, hc, if_neg,
              pktPrefix, List.filter_cons, hkeep, if_true, List.map_cons]
          · rw [(ih (k + 1)).1 h]; rfl
          · rw [(ih (k + 1)).2.1 h]; rfl
          · rw [(ih (k + 1)).2.2 h]; rfl
      | eof =>
        refine ⟨?_, ?_, ?_⟩ <;> intro h
        · simp [reader_loop, halloc k, pktPrefix]
        · simp [stopper] at h
        · simp [stopper] at h
      | err =>
        refine ⟨?_, ?_, ?_⟩ <;> intro h
        · simp [stopper] at h
        · simp [reader_loop, halloc k, pktPrefix]
        · simp [stopper] at h
  exact main sched 0

/-- Witness for C4: a video packet (kept), an audio packet (dropped),
a packet with a null buffer (dropped), then EOF. -/
theorem reader_thread_behavior_witness :
    stopper [.pkt ⟨some 5, 0, 1⟩, .pkt ⟨some 6, 1, 2⟩,
        .pkt ⟨none, 0, 3⟩, .eof] = some .eof ∧
    reader_thread (fun _ => true) 0
        [.pkt ⟨some 5, 0, 1⟩, .pkt ⟨some 6, 1, 2⟩,
          .pkt ⟨none, 0, 3⟩, .eof] =
      .finished ((([⟨some 5, 0, 1⟩, ⟨some 6, 1, 2⟩,
            ⟨none, 0, 3⟩] : List Packet).filter (keepPacket 0)).map some
        ++ [none]) :=
  ⟨by decide,
   (reader_thread_behavior (fun _ => true) 0
      [.pkt ⟨some 5, 0, 1⟩, .pkt ⟨some 6, 1, 2⟩, .pkt ⟨none, 0, 3⟩, .eof]
      (fun _ => rfl)).1 (by decide)⟩

/-! ### C3 -/

/-- Inverting `push` on a finished run. -/
theorem RunResult.push_finished {ω : Type} {x : ω} {r : RunResult ω}
    {out : List ω} (h : r.push x = .finished out) :
    ∃ out', r = .finished out' ∧ out = x :: out' := by
  cases r with
  | finished o => exact ⟨o, rfl, by cases h; rfl⟩
  | fatal o msg => simp [RunResult.push] at h
  | stuck o => simp [RunResult.push] at h

/-- A finished reader run's queue history is packets followed by the
single null sentinel. -/
theorem reader_loop_finished_shape (alloc : Nat → Bool) (idx : Int) :
    ∀ (sched : List ReadRes) (k : Nat) (out : List (Option Packet)),
      reader_loop alloc idx sched k = .finished out →
      ∃ xs : List Packet, out = xs.map some ++ [none] := by
  intro sched
  induction sched with
  | nil =>
    intro k out h
    simp only [reader_loop] at h
    split at h <;> cases h
  | cons e rest ih =>
    intro k out h
    cases e with
    | pkt p =>
      simp only [reader_loop] at h
      split at h
      · split at h
        · exact ih (k + 1) out h
        · obtain ⟨out', h', rfl⟩ := RunResult.push_finished h
          obtain ⟨xs, rfl⟩ := ih (k + 1) out' h'
          exact ⟨p :: xs, rfl⟩
      · cases h
    | eof =>
      simp only [reader_loop] at h
      split at h <;> cases h
      exact ⟨[], rfl⟩
    | err =>
      simp only [reader_loop] at h
      split at h <;> cases h

/-- A finished decoder run's queue history is frames followed by the
single null sentinel. -/
theorem decoder_codec_loop_finished_shape (alloc : Nat → Bool) :
    ∀ (sched : List DecEvent) (pq : List (Option Packet)) (k : Nat)
      (fok : Bool) (out : List (Option Frame)),
      decoder_codec_loop alloc sched pq k fok = .finished out →
      ∃ xs : List Frame, out = xs.map some ++ [none] := by
  intro sched
  induction sched with
  | nil =>
    intro pq k fok out h
    cases fok <;> cases h
  | cons e rest ih =>
    intro pq k fok out h
    cases fok
    · rw [decoder_codec_loop_dead] at h; cases h
    · cases e with
      | ok f =>
        simp only [decoder_codec_loop] at h
        obtain ⟨out', h', rfl⟩ := RunResult.push_finished h
        obtain ⟨xs, rfl⟩ := ih pq (k + 1) (alloc (k + 1)) out' h'
        exact ⟨f :: xs, rfl⟩
      | eagain r =>
        cases pq with
        | nil => cases h
        | cons p pq' =>
          simp only [decoder_codec_loop] at h
          split at h
          · cases h
          · exact ih pq' k true out h
      | eof => cases h; exact ⟨[], rfl⟩
      | einval => cases h

/-- Inverting `mapOut` on a finished encoder run. -/
theorem EncResult.mapOut_finished {f : EncOut → EncOut} {r : EncResult}
    {o : EncOut} (h : r.mapOut f = .finished o) :
    ∃ o', r = .finished o' ∧ o = f o' := by
  cases r with
  | finished o' => exact ⟨o', rfl, by cases h; rfl⟩
  | fatal o' msg => simp [EncResult.mapOut] at h
  | stuck o' => simp [EncResult.mapOut] at h

/-- A dead packet container makes the encoder loop `pexit` immediately,
whatever the remaining schedule and queue. -/
theorem encoder_loop_dead (pkt_alloc sd_alloc ts_alloc : Nat → Bool)
    (gaze : Nat → Descr) (time : Nat → Int) (sched : List EncEvent)
    (fq : List (Option Frame)) (kp ks : Nat) :
    encoder_loop pkt_alloc sd_alloc ts_alloc gaze time sched fq kp ks false =
      .fatal .empty "av_packet_alloc failed" := by
  cases sched with
  | nil => rfl
  | cons e rest =>
    cases e with
    | ok p => rfl
    | eagain r =>
      cases fq with
      | nil => rfl
      | cons fr fq' => cases fr <;> rfl
    | eof => rfl
    | einval => rfl

/-- A finished encoder run's output packet-queue history is packets
followed by the single null sentinel. -/
theorem encoder_loop_finished_shape (pkt_alloc sd_alloc ts_alloc : Nat → Bool)
    (gaze : Nat → Descr) (time : Nat → Int) :
    ∀ (sched : List EncEvent) (fq : List (Option Frame)) (kp ks : Nat)
      (pok : Bool) (o : EncOut),
      encoder_loop pkt_alloc sd_alloc ts_alloc gaze time sched fq kp ks pok =
        .finished o →
      ∃ xs : List Packet, o.pkts = xs.map some ++ [none] := by
  intro sched
  induction sched with
  | nil =>
    intro fq kp ks pok o h
    cases pok <;> cases h
  | cons e rest ih =>
    intro fq kp ks pok o h
    cases pok
    · rw [encoder_loop_dead] at h; cases h
    · cases e with
      | ok p =>
        simp only [encoder_loop, EncResult.pushPkt] at h
        obtain ⟨o', h', rfl⟩ := EncResult.mapOut_finished h
        obtain ⟨xs, hx⟩ := ih fq (kp + 1) ks (pkt_alloc (kp + 1)) o' h'
        exact ⟨p :: xs, by simp [hx]⟩
      | eagain r =>
        cases fq with
        | nil => cases h
        | cons fr fq' =>
          cases fr with
          | none => cases h; exact ⟨[], rfl⟩
          | some fr =>
            simp only [encoder_loop] at h
            split at h
            · split at h
              · cases h
              · split at h
                · simp only [EncResult.pushSub, EncResult.pushLag] at h
                  obtain ⟨o₁, h₁, rfl⟩ := EncResult.mapOut_finished h
                  obtain ⟨o₂, h₂, rfl⟩ := EncResult.mapOut_finished h₁
                  obtain ⟨xs, hx⟩ := ih fq' kp (ks + 1) true o₂ h₂
                  exact ⟨xs, hx⟩
                · simp only [EncResult.pushSub, EncResult.pushErr,
                    EncResult.pushLag] at h
                  obtain ⟨o₁, h₁, rfl⟩ := EncResult.mapOut_finished h
                  obtain ⟨o₂, h₂, rfl⟩ := EncResult.mapOut_finished h₁
                  obtain ⟨o₃, h₃, rfl⟩ := EncResult.mapOut_finished h₂
                  obtain ⟨xs, hx⟩ := ih fq' kp (ks + 1) true o₃ h₃
                  exact ⟨xs, hx⟩
            · cases h
      | eof => cases h; exact ⟨[], rfl⟩
      | einval => cases h

/-- `xs.map some ++ [none]` contains exactly one `none`, as its last
element. -/
theorem sentinelFinal_of_shape {α : Type} [DecidableEq α] (xs : List α) :
    sentinelFinal (xs.map some ++ [none]) := by
  constructor
  · rw [List.count_append]
    have h0 : (xs.map some).count (none : Option α) = 0 := by
      rw [List.count_eq_zero]
      simp
    simp [h0]
  · simp

/-- C3: each pipeline stage terminates its downstream queue with
exactly one null sentinel, appended after its main loop exits as the
final item of the queue history: the reader on end-of-stream, and the
decoder and encoder stages in propagation. -/
theorem sentinel_unique_and_final :
    (∀ (alloc : Nat → Bool) (idx : Int) (sched : List ReadRes)
        (out : List (Option Packet)),
      reader_thread alloc idx sched = .finished out → sentinelFinal out) ∧
    (∀ (alloc : Nat → Bool) (sched : List DecEvent)
        (pq : List (Option Packet)) (out : List (Option Frame)),
      decoder_thread_codec alloc sched pq = .finished out →
        sentinelFinal out) ∧
    (∀ (pkt_alloc sd_alloc ts_alloc : Nat → Bool) (gaze : Nat → Descr)
        (time : Nat → Int) (sched : List EncEvent)
        (fq : List (Option Frame)) (o : EncOut),
      encoder_thread pkt_alloc sd_alloc ts_alloc gaze time sched fq =
          .finished o →
        sentinelFinal o.pkts) := by
  refine ⟨?_, ?_, ?_⟩
  · intro alloc idx sched out h
    obtain ⟨xs, rfl⟩ := reader_loop_finished_shape alloc idx sched 0 out h
    exact sentinelFinal_of_shape xs
  · intro alloc sched pq out h
    obtain ⟨xs, rfl⟩ :=
      decoder_codec_loop_finished_shape alloc sched pq 0 (alloc 0) out h
    exact sentinelFinal_of_shape xs
  · intro pkt_alloc sd_alloc ts_alloc gaze time sched fq o h
    obtain ⟨xs, hx⟩ :=
      encoder_loop_finished_shape pkt_alloc sd_alloc ts_alloc gaze time
        sched fq 0 0 (pkt_alloc 0) o h
    rw [hx]
    exact sentinelFinal_of_shape xs

/-- Witness for C3 on minimal end-of-stream runs of all three stages. -/
theorem sentinel_unique_and_final_witness :
    sentinelFinal ([none] : List (Option Packet)) ∧
    sentinelFinal ([none] : List (Option Frame)) ∧
    sentinelFinal (({ EncOut.empty with pkts := [none] } : EncOut).pkts) :=
  ⟨sentinel_unique_and_final.1 (fun _ => true) 0 [.eof] [none] rfl,
   sentinel_unique_and_final.2.1 (fun _ => true) [.eof] [] [none] rfl,
   sentinel_unique_and_final.2.2 (fun _ => true) (fun _ => true)
     (fun _ => true) (fun _ => (0, 0, 3 / 10, 20)) (fun _ => 0) [.eof] []
     { EncOut.empty with pkts := [none] } rfl⟩

/-! ### C1 -/

theorem EncResult.out_mapOut (f : EncOut → EncOut) (r : EncResult) :
    (r.mapOut f).out = f r.out := by
  cases r <;> rfl

/-- The frame built just before `supply_frame` carries the foveation
side data. -/
theorem hasFovSideData_attach (fr : Frame) (d : Descr) (pt : Int) :
    hasFovSideData { attach_descriptor fr d with pict_type := pt } := by
  refine ⟨⟨AV_FRAME_DATA_FOVEATION_DESCRIPTOR, descr_size, some d⟩, ?_,
    rfl, rfl, by simp⟩
  simp [attach_descriptor]

/-- Every frame the encoder loop passes to `supply_frame`, in any run,
carries the foveation side data. -/
theorem encoder_loop_subs_fov (pkt_alloc sd_alloc ts_alloc : Nat → Bool)
    (gaze : Nat → Descr) (time : Nat → Int) :
    ∀ (sched : List EncEvent) (fq : List (Option Frame)) (kp ks : Nat)
      (pok : Bool) (fr : Frame),
      fr ∈ (encoder_loop pkt_alloc sd_alloc ts_alloc gaze time sched fq
          kp ks pok).out.subs →
      hasFovSideData fr := by
  intro sched
  induction sched with
  | nil =>
    intro fq kp ks pok fr h
    cases pok <;> simp [encoder_loop, EncResult.out, EncOut.empty] at h
  | cons e rest ih =>
    intro fq kp ks pok fr h
    cases pok
    · rw [encoder_loop_dead] at h
      simp [EncResult.out, EncOut.empty] at h
    · cases e with
      | ok p =>
        rw [encoder_loop] at h
        rw [EncResult.pushPkt, EncResult.out_mapOut] at h
        exact ih fq (kp + 1) ks (pkt_alloc (kp + 1)) fr h
      | eagain r =>
        cases fq with
        | nil => simp [encoder_loop, EncResult.out, EncOut.empty] at h
        | cons ofr fq' =>
          cases ofr with
          | none => simp [encoder_loop, EncResult.out, EncOut.empty] at h
          | some fr₀ =>
            rw [encoder_loop] at h
            split at h
            · split at h
              · simp only [EncResult.out, EncOut.empty,
                  List.mem_singleton] at h
                subst h
                exact hasFovSideData_attach fr₀ (gaze ks) 0
              · split at h
                · rw [EncResult.pushSub, EncResult.out_mapOut,
                    EncResult.pushLag, EncResult.out_mapOut] at h
                  simp only [List.mem_cons] at h
                  rcases h with rfl | h
                  · exact hasFovSideData_attach fr₀ (gaze ks) 0
                  · exact ih fq' kp (ks + 1) true fr h
                · rw [EncResult.pushSub, EncResult.out_mapOut,
                    EncResult.pushErr, EncResult.out_mapOut,
                    EncResult.pushLag, EncResult.out_mapOut] at h
                  simp only [List.mem_cons] at h
                  rcases h with rfl | h
                  · exact hasFovSideData_attach fr₀ (gaze ks) 0
                  · exact ih fq' kp (ks + 1) true fr h
            · simp [EncResult.out, EncOut.empty] at h
      | eof => simp [encoder_loop, EncResult.out, EncOut.empty] at h
      | einval => simp [encoder_loop, EncResult.out, EncOut.empty] at h

/-- C1: every frame the encoder stage submits to the encoder codec (any
non-sentinel frame taken from its input frame queue) carries, attached
before `supply_frame` is called, a side-data entry with the
`FOVEATION_DESCRIPTOR` tag, a non-null payload, and size exactly 16
bytes (4 floats). -/
theorem encoder_submitted_frames_carry_descriptor
    (pkt_alloc sd_alloc ts_alloc : Nat → Bool) (gaze : Nat → Descr)
    (time : Nat → Int) (sched : List EncEvent) (fq : List (Option Frame))
    (fr : Frame)
    (h : fr ∈ (encoder_thread pkt_alloc sd_alloc ts_alloc gaze time
        sched fq).out.subs) :
    hasFovSideData fr :=
  encoder_loop_subs_fov pkt_alloc sd_alloc ts_alloc gaze time sched fq
    0 0 (pkt_alloc 0) fr h

/-- Witness for C1: the one frame submitted in a two-event run carries
the 16-byte foveation side data. -/
theorem encoder_submitted_frames_carry_descriptor_witness :
    hasFovSideData
      ⟨7, 0, [⟨AV_FRAME_DATA_FOVEATION_DESCRIPTOR, descr_size,
        some (0, 0, 3 / 10, 20)⟩]⟩ :=
  encoder_submitted_frames_carry_descriptor (fun _ => true) (fun _ => true)
    (fun _ => true) (fun _ => (0, 0, 3 / 10, 20)) (fun _ => 0)
    [.eagain 0, .eof] [some ⟨7, 5, []⟩, none]
    ⟨7, 0, [⟨AV_FRAME_DATA_FOVEATION_DESCRIPTOR, descr_size,
      some (0, 0, 3 / 10, 20)⟩]⟩ (List.Mem.head _)

/-! ### C2 -/

/-- Shifting the clock index across one submission. -/
theorem range_map_time_succ (time : Nat → Int) (n ks : Nat) :
    (List.range (n + 1)).map (fun i => some (time (ks + i))) =
      some (time ks) ::
        (List.range n).map (fun i => some (time (ks + 1 + i))) := by
  have hf : ((fun i => some (time (ks + i))) ∘ Nat.succ) =
      fun i => some (time (ks + 1 + i)) := by
    funext i
    simp only [Function.comp_apply, Nat.succ_eq_add_one]
    congr 2
    omega
  rw [List.range_succ_eq_map, List.map_cons, List.map_map, hf]
  simp

/-- In every finished encoder-loop run the lag-queue history is exactly
one entry per frame submission, in submission order; when every
lag-timestamp `malloc` succeeds, the i-th entry is the clock value
captured at the i-th submission. -/
theorem encoder_loop_lags (pkt_alloc sd_alloc ts_alloc : Nat → Bool)
    (gaze : Nat → Descr) (time : Nat → Int) :
    ∀ (sched : List EncEvent) (fq : List (Option Frame)) (kp ks : Nat)
      (pok : Bool) (o : EncOut),
      encoder_loop pkt_alloc sd_alloc ts_alloc gaze time sched fq
          kp ks pok = .finished o →
      o.lags.length = o.subs.length ∧
      ((∀ i, ts_alloc i = true) →
        o.lags =
          (List.range o.subs.length).map fun i => some (time (ks + i))) := by
  intro sched
  induction sched with
  | nil =>
    intro fq kp ks pok o h
    cases pok <;> cases h
  | cons e rest ih =>
    intro fq kp ks pok o h
    cases pok
    · rw [encoder_loop_dead] at h; cases h
    · cases e with
      | ok p =>
        rw [encoder_loop, EncResult.pushPkt] at h
        obtain ⟨o', h', rfl⟩ := EncResult.mapOut_finished h
        exact ih fq (kp + 1) ks (pkt_alloc (kp + 1)) o' h'
      | eagain r =>
        cases fq with
        | nil => cases h
        | cons ofr fq' =>
          cases ofr with
          | none =>
            cases h
            exact ⟨rfl, fun _ => rfl⟩
          | some fr₀ =>
            rw [encoder_loop] at h
            split at h
            · split at h
              · cases h
              · split at h
                · rw [EncResult.pushSub] at h
                  obtain ⟨o₁, h₁, rfl⟩ := EncResult.mapOut_finished h
                  rw [EncResult.pushLag] at h₁
                  obtain ⟨o₂, h₂, rfl⟩ := EncResult.mapOut_finished h₁
                  obtain ⟨ihl, ihr⟩ := ih fq' kp (ks + 1) true o₂ h₂
                  refine ⟨by simpa using ihl, fun hts => ?_⟩
                  simp only [List.length_cons]
                  rw [range_map_time_succ time o₂.subs.length ks]
                  simpa using ihr hts
                · rename_i hts_false
                  rw [EncResult.pushSub] at h
                  obtain ⟨o₁, h₁, rfl⟩ := EncResult.mapOut_finished h
                  rw [EncResult.pushErr] at h₁
                  obtain ⟨o₂, h₂, rfl⟩ := EncResult.mapOut_finished h₁
                  rw [EncResult.pushLag] at h₂
                  obtain ⟨o₃, h₃, rfl⟩ := EncResult.mapOut_finished h₂
                  obtain ⟨ihl, _⟩ := ih fq' kp (ks + 1) true o₃ h₃
                  refine ⟨by simpa using ihl, fun hts => ?_⟩
                  exact absurd (hts ks) (by simpa using hts_false)
            · cases h
      | eof =>
        cases h
        exact ⟨rfl, fun _ => rfl⟩
      | einval => cases h

/-- C2: in every finished run of the encoder loop, the number of
lag-queue entries equals the number of frames submitted to the encoder
codec, and the entries are enqueued in submission order: when every
lag-timestamp allocation succeeds, the i-th lag entry is the clock
value captured at the i-th submission. -/
theorem encoder_lag_matches_submissions
    (pkt_alloc sd_alloc ts_alloc : Nat → Bool) (gaze : Nat → Descr)
    (time : Nat → Int) (sched : List EncEvent) (fq : List (Option Frame))
    (o : EncOut)
    (h : encoder_thread pkt_alloc sd_alloc ts_alloc gaze time sched fq =
      .finished o) :
    o.lags.length = o.subs.length ∧
    ((∀ i, ts_alloc i = true) →
      o.lags = (List.range o.subs.length).map fun i => some (time i)) := by
  obtain ⟨hl, hr⟩ :=
    encoder_loop_lags pkt_alloc sd_alloc ts_alloc gaze time sched fq
      0 0 (pkt_alloc 0) o h
  refine ⟨hl, fun hts => ?_⟩
  rw [hr hts]
  simp

/-- Output of a concrete two-submission encoder run, used as witness
input for C2. -/
def encoder_two_sub_out : EncOut :=
  ⟨[none], [some 0, some 1],
    [⟨1, 0, [⟨AV_FRAME_DATA_FOVEATION_DESCRIPTOR, descr_size,
        some (0, 0, 3 / 10, 20)⟩]⟩,
      ⟨2, 0, [⟨AV_FRAME_DATA_FOVEATION_DESCRIPTOR, descr_size,
        some (0, 0, 3 / 10, 20)⟩]⟩],
    []⟩

/-- Witness for C2 on a two-submission run with the clock reading `i`
at the i-th submission. -/
theorem encoder_lag_matches_submissions_witness :
    encoder_two_sub_out.lags.length = encoder_two_sub_out.subs.length ∧
    encoder_two_sub_out.lags =
      (List.range encoder_two_sub_out.subs.length).map
        fun i => some ((i : Nat) : Int) :=
  ⟨(encoder_lag_matches_submissions (fun _ => true) (fun _ => true)
      (fun _ => true) (fun _ => (0, 0, 3 / 10, 20)) (fun i => (i : Int))
      [.eagain 0, .eagain 0, .eof]
      [some ⟨1, 0, []⟩, some ⟨2, 0, []⟩, none]
      encoder_two_sub_out rfl).1,
   (encoder_lag_matches_submissions (fun _ => true) (fun _ => true)
      (fun _ => true) (fun _ => (0, 0, 3 / 10, 20)) (fun i => (i : Int))
      [.eagain 0, .eagain 0, .eof]
      [some ⟨1, 0, []⟩, some ⟨2, 0, []⟩, none]
      encoder_two_sub_out rfl).2 (fun _ => rfl)⟩

/-! ### C7 -/

/-- C7 (code-bug evidence): a failed lag-timestamp `malloc` in the
encoder loop is NOT fatal.  With every other allocation succeeding and
the lag-timestamp allocation failing, the run FINISHES: the thread
reports "malloc failed" via `perror` only and continues (the source
then stores through the null pointer), instead of the `pexit`
termination that the claim — and every sibling allocation site, such
as the side-data allocation shown in the second conjunct — prescribes. -/
theorem lag_timestamp_alloc_failure_not_fatal :
    encoder_thread (fun _ => true) (fun _ => true) (fun _ => false)
        (fun _ => (0, 0, 3 / 10, 20)) (fun _ => 0)
        [.eagain 0, .eof] [some ⟨7, 5, []⟩, none] =
      .finished ⟨[none], [none],
        [⟨7, 0, [⟨AV_FRAME_DATA_FOVEATION_DESCRIPTOR, descr_size,
          some (0, 0, 3 / 10, 20)⟩]⟩],
        ["malloc failed"]⟩ ∧
    encoder_thread (fun _ => true) (fun _ => false) (fun _ => true)
        (fun _ => (0, 0, 3 / 10, 20)) (fun _ => 0)
        [.eagain 0, .eof] [some ⟨7, 5, []⟩, none] =
      .fatal .empty "side data allocation failed" :=
  ⟨rfl, rfl⟩

end FFoveated
